import Mathlib

/-!
Shallow embedding of the pdfannotate offline-first sync engine.

Server side (src/backend/src): `validate.ts` (assertDocId, parseIntField),
`index.ts` (the four /api/docs endpoints over the sqlite-backed doc index).
Client side (src/frontend/src/sync.ts): uploadOne, flushOutbox with its
single-flight guard, backoff and sync-change notifications; and the DocPage
load / checkForUpdate logic from the application component (src/unnamed/part_000).

Machine integers are modelled as `Int`/`Nat` (JS numbers here are small
integers), byte buffers as `List Nat`, and asynchronous handlers as pure
functions from request plus state to response plus new state, with an
explicit trace of store operations where a claim speaks about ordering.
-/

namespace PdfAnnotate

/-- `assertDocId`'s regex character class `[a-zA-Z0-9_-]` (validate.ts). -/
def isIdChar (c : Char) : Bool :=
  c.isAlpha || c.isDigit || c = '_' || c = '-'

/-- The docId validity test of validate.ts: `/^[a-zA-Z0-9_-]{8,80}$/.test(docId)`. -/
def docIdValid (s : String) : Bool :=
  8 ≤ s.length && s.length ≤ 80 && s.toList.all isIdChar

/-- Value of a nonempty leading digit run, base 10. -/
def digitsVal (cs : List Char) : Option Nat :=
  let ds := cs.takeWhile Char.isDigit
  if ds.isEmpty then none
  else some (ds.foldl (fun acc c => acc * 10 + (c.toNat - 48)) 0)

/-- JS `Number.parseInt(s, 10)`: skip leading whitespace, optional sign,
maximal digit run; `none` models `NaN` (no digits at all). -/
def jsParseInt10 (s : String) : Option Int :=
  let cs := s.toList.dropWhile (fun c => c = ' ' || c = '\t' || c = '\n' || c = '\r')
  match cs with
  | '-' :: rest => (digitsVal rest).map (fun n => -(n : Int))
  | '+' :: rest => (digitsVal rest).map (fun n => (n : Int))
  | rest => (digitsVal rest).map (fun n => (n : Int))

/-- `parseIntField` (validate.ts): a non-string field is `NaN`; a string is
parsed with `parseInt(v, 10)`; non-finite results raise a 400 error,
modelled as `none`. -/
def parseIntField (v : Option String) : Option Int :=
  match v with
  | some s => jsParseInt10 s
  | none => none

/-- One row of the server's `docs` table (indexDb.ts `DocRow`). -/
structure DocRow where
  docId : String
  filename : String
  createdAt : Int
  updatedAt : Int
  rev : Int
  sha256 : String
  sizeBytes : Int
deriving DecidableEq, Repr

/-- Server state: the doc index plus the set of stored pdf blobs, keyed by
`(docId, rev)` as in `pdfs/<docId>/rev-<rev>.pdf`. -/
structure ServerState where
  docs : List DocRow
  files : List (String × Int)
deriving DecidableEq, Repr

/-- `IndexDb.getDoc`: primary-key lookup in the docs table. -/
def getDoc (st : ServerState) (d : String) : Option DocRow :=
  st.docs.find? (fun r => r.docId = d)

/-- The ON CONFLICT(docId) DO UPDATE clause: every column except
`createdAt` is overwritten. -/
def updRow (row r : DocRow) : DocRow :=
  if r.docId = row.docId then
    { r with filename := row.filename, updatedAt := row.updatedAt,
             rev := row.rev, sha256 := row.sha256, sizeBytes := row.sizeBytes }
  else r

/-- INSERT .. ON CONFLICT(docId) DO UPDATE on the docs table. -/
def upsertList (l : List DocRow) (row : DocRow) : List DocRow :=
  if (l.find? (fun r => r.docId = row.docId)).isSome then l.map (updRow row)
  else l ++ [row]

/-- `IndexDb.upsertDoc`: INSERT .. ON CONFLICT(docId) DO UPDATE of every
column except `createdAt`. -/
def upsertDoc (st : ServerState) (row : DocRow) : ServerState :=
  { st with docs := upsertList st.docs row }

/-- HTTP responses of the /api/docs endpoints, by shape. -/
inductive Resp where
  | okUpload (docId : String) (revServer : Int)
  | okMeta (docId : String) (rev : Int) (filename : String) (updatedAt : Int)
  | okFile (docId : String) (rev : Int)
  | conflict (revServer : Int)
  | badRequest (msg : String)
  | notFound (msg : String)
deriving DecidableEq, Repr

/-- HTTP status code of a modelled response. -/
def Resp.status : Resp → Nat
  | .okUpload _ _ => 200
  | .okMeta _ _ _ _ => 200
  | .okFile _ _ => 200
  | .conflict _ => 409
  | .badRequest _ => 400
  | .notFound _ => 404

/-- Store operations a handler performs, in order (doc index lookups and
writes, pdf blob reads and writes). -/
inductive StoreOp where
  | lookup (docId : String)
  | upsert (docId : String)
  | fileWrite (docId : String) (rev : Int)
  | fileRead (docId : String) (rev : Int)
deriving DecidableEq, Repr

/-- Multipart body of POST /api/docs and PUT /api/docs/:docId. -/
structure UploadReq where
  docId : Option String
  filename : Option String
  revClient : Option String
  file : Option (List Nat)
deriving DecidableEq, Repr

/-- `GET /api/docs/:docId/meta` (index.ts). -/
def getMetaH (st : ServerState) (d : String) : Resp × List StoreOp :=
  if ¬ docIdValid d then (Resp.badRequest "docId invalide", [])
  else
    match getDoc st d with
    | none => (Resp.notFound "not_found", [StoreOp.lookup d])
    | some doc => (Resp.okMeta doc.docId doc.rev doc.filename doc.updatedAt, [StoreOp.lookup d])

/-- `GET /api/docs/:docId/file` (index.ts): an `async` handler whose
`assertDocId` call sits outside any try/catch — under Express 4 (the only
version on which this app's `app.get("*", ...)` route is valid) its throw
becomes an unhandled promise rejection, so on an invalid docId no HTTP
response is ever sent; that path is `none`. Valid ids answer 200, 404
`not_found`, or 404 `file_missing` when the index references a revision
whose blob is absent. -/
def getFileH (st : ServerState) (d : String) : Option Resp × List StoreOp :=
  if ¬ docIdValid d then (none, [])
  else
    match getDoc st d with
    | none => (some (Resp.notFound "not_found"), [StoreOp.lookup d])
    | some doc =>
      if (d, doc.rev) ∈ st.files then
        (some (Resp.okFile d doc.rev), [StoreOp.lookup d, StoreOp.fileRead d doc.rev])
      else (some (Resp.notFound "file_missing"), [StoreOp.lookup d])

/-- `POST /api/docs` (index.ts). Field order as in the source: the body docId
defaults to `""`, `parseIntField` runs before `assertDocId`, then the file
check, then the optimistic-concurrency check against an existing record. -/
def postDocs (now : Int) (sha : List Nat → String) (req : UploadReq) (st : ServerState) :
    Resp × ServerState × List StoreOp :=
  let d := req.docId.getD ""
  let filename := req.filename.getD (d ++ ".pdf")
  match parseIntField req.revClient with
  | none => (Resp.badRequest "Champ invalide: revClient", st, [])
  | some revClient =>
    if ¬ docIdValid d then (Resp.badRequest "docId invalide", st, [])
    else
      match req.file with
      | none => (Resp.badRequest "missing_file", st, [])
      | some bytes =>
        match getDoc st d with
        | some existing =>
          if revClient ≤ existing.rev then
            (Resp.conflict existing.rev, st, [StoreOp.lookup d])
          else
            let st' := upsertDoc { st with files := st.files ++ [(d, revClient)] }
              { docId := d, filename := filename, createdAt := existing.createdAt,
                updatedAt := now, rev := revClient, sha256 := sha bytes,
                sizeBytes := bytes.length }
            (Resp.okUpload d revClient, st',
              [StoreOp.lookup d, StoreOp.fileWrite d revClient, StoreOp.upsert d])
        | none =>
          let st' := upsertDoc { st with files := st.files ++ [(d, revClient)] }
            { docId := d, filename := filename, createdAt := now,
              updatedAt := now, rev := revClient, sha256 := sha bytes,
              sizeBytes := bytes.length }
          (Resp.okUpload d revClient, st',
            [StoreOp.lookup d, StoreOp.fileWrite d revClient, StoreOp.upsert d])

/-- `PUT /api/docs/:docId` (index.ts): `assertDocId` first, 404 when no
record exists, 409 when the proposed revision does not strictly advance. -/
def putDoc (now : Int) (sha : List Nat → String) (d : String) (req : UploadReq)
    (st : ServerState) : Resp × ServerState × List StoreOp :=
  if ¬ docIdValid d then (Resp.badRequest "docId invalide", st, [])
  else
    let filename := req.filename.getD (d ++ ".pdf")
    match parseIntField req.revClient with
    | none => (Resp.badRequest "Champ invalide: revClient", st, [])
    | some revClient =>
      match req.file with
      | none => (Resp.badRequest "missing_file", st, [])
      | some bytes =>
        match getDoc st d with
        | none => (Resp.notFound "not_found", st, [StoreOp.lookup d])
        | some existing =>
          if revClient ≤ existing.rev then
            (Resp.conflict existing.rev, st, [StoreOp.lookup d])
          else
            let st' := upsertDoc { st with files := st.files ++ [(d, revClient)] }
              { docId := d, filename := filename, createdAt := existing.createdAt,
                updatedAt := now, rev := revClient, sha256 := sha bytes,
                sizeBytes := bytes.length }
            (Resp.okUpload d revClient, st',
              [StoreOp.lookup d, StoreOp.fileWrite d revClient, StoreOp.upsert d])

/-- Client-side document metadata (the `DocMeta` of the local store, as used
by sync.ts: `revServer` optional, absent until the server first confirms). -/
structure ClientMeta where
  filename : String
  revLocal : Int
  revServer : Option Int
  lastSyncedAt : Option Int
deriving DecidableEq, Repr

/-- An outbox job as listed by `listOutbox` (id, docId, rev, bytes, tries). -/
structure OutJob where
  id : String
  docId : String
  rev : Int
  tries : Nat
deriving DecidableEq, Repr

/-- Transport result of one upload request, by HTTP shape. -/
inductive HttpResult where
  | ok (revServer : Int)
  | conflict (revServer : Int)
  | httpError (status : Nat)
  | networkError
deriving DecidableEq, Repr

/-- What `uploadOne` (sync.ts) does with a transport result: a 409, any other
non-ok status and a network error all throw a plain `Error`; only a 2xx
returns, carrying the confirmed `revServer`. -/
inductive UploadOutcome where
  | success (revServer : Int)
  | failure (msg : String)
deriving DecidableEq, Repr

def uploadOneResult (res : HttpResult) : UploadOutcome :=
  match res with
  | .ok r => .success r
  | .conflict r => .failure ("Conflit serveur (409). revServer=" ++ toString r)
  | .httpError s => .failure ("HTTP " ++ toString s)
  | .networkError => .failure "fetch failed"

/-- The upload route chosen by `uploadOne`:
`existsOnServer = meta?.revServer !== undefined && meta.revServer > 0`. -/
inductive UploadRoute where
  | postCreate
  | putUpdate (docId : String)
deriving DecidableEq, Repr

def chooseRoute (docId : String) (meta : Option ClientMeta) : UploadRoute :=
  let existsOnServer :=
    match meta with
    | none => false
    | some m => match m.revServer with
      | none => false
      | some r => r > 0
  if existsOnServer then .putUpdate docId else .postCreate

/-- Backoff before the next iteration after a failed upload (sync.ts):
`250 * 2 ** Math.min(6, Math.max(1, job.tries ?? 1))`. -/
def backoffMs (tries : Nat) : Nat :=
  250 * 2 ^ min 6 (max 1 tries)

/-- What one iteration of the flush loop does with a failed vs successful
upload: success removes the job from the outbox; any failure (a 409
included) bumps the job's try counter and sleeps the exponential backoff. -/
inductive StepAction where
  | removedJob
  | retriedWithBackoff (sleepMs : Nat)
deriving DecidableEq, Repr

def flushIterAction (job : OutJob) (res : HttpResult) : StepAction :=
  match uploadOneResult res with
  | .success _ => .removedJob
  | .failure _ => .retriedWithBackoff (backoffMs job.tries)

/-- `bumpOutboxTry`: the stored job keeps its identity, its try counter
grows. Modelled from the spec: `bumpTries(id, error)` of the Local Revision
Store (db.ts is not part of the sources). -/
def bumpJob (j : OutJob) : OutJob :=
  { j with tries := j.tries + 1 }

/-- Result of running the drain loop of `flushOutbox`: the jobs attempted in
order, the `notifySyncChange` calls made inside the loop, the outbox left
behind, and whether the `while` condition exited (as opposed to the fuel
running out). -/
structure FlushRun where
  attempts : List OutJob
  notifs : List (Bool × Nat)
  remaining : List OutJob
  exited : Bool
deriving DecidableEq, Repr

/-- The drain loop of `flushOutbox` (sync.ts):
`while (jobs.length > 0 && navigator.onLine) { attempt jobs[0]; re-list; notify }`.
`online k` is `navigator.onLine` sampled at iteration `k`; `ok k` is whether
the upload attempted at iteration `k` succeeds. The outbox `listOutbox` is
modelled from the spec as `listOutboxOrderedByCreation` (db.ts is not part
of the sources): the queue list is in creation order and a failed job stays
at its place with its try counter bumped. -/
def flushSteps (online ok : Nat → Bool) : Nat → Nat → List OutJob → FlushRun
  | 0, _, q => ⟨[], [], q, false⟩
  | _ + 1, _, [] => ⟨[], [], [], true⟩
  | fuel + 1, k, j :: rest =>
    if online k then
      let q' := if ok k then rest else bumpJob j :: rest
      let r := flushSteps online ok fuel (k + 1) q'
      ⟨j :: r.attempts, (true, q'.length) :: r.notifs, r.remaining, r.exited⟩
    else ⟨[], [], j :: rest, true⟩

/-- A full run of the body of `flushOutbox` past the single-flight and
offline guards: the initial `notifySyncChange(true, jobs.length)`, the loop,
and — when the loop exits — the final `notifySyncChange(false, 0)`. -/
def flushOutboxRun (online ok : Nat → Bool) (fuel : Nat) (q : List OutJob) :
    List (Bool × Nat) × List OutJob × Bool :=
  let r := flushSteps online ok fuel 0 q
  ((true, q.length) :: r.notifs ++ (if r.exited then [(false, 0)] else []), r.remaining, r.exited)

/-- The module state guarding `flushOutbox`: the `flushing` and `flushQueued`
booleans, plus a ghost count of drain loops currently in flight. -/
structure SyncState where
  flushing : Bool
  flushQueued : Bool
  active : Nat
deriving DecidableEq, Repr

def initSync : SyncState := ⟨false, false, 0⟩

/-- External events hitting `flushOutbox`: a call (from a save, an online
event, a user click) and the termination of a running drain loop. Each
carries `navigator.onLine` at that moment. -/
inductive Ev where
  | call (online : Bool)
  | finish (online : Bool)
deriving DecidableEq, Repr

/-- The synchronous prefix of `flushOutbox` and of its `finally` block
(sync.ts): a call while `flushing` only sets `flushQueued`; otherwise, when
offline it returns after reporting, and when online it starts a drain
(`flushing = true; flushQueued = false`). A finishing drain clears
`flushing` and, if `flushQueued`, immediately re-invokes `flushOutbox`,
whose synchronous prefix runs before any other event. -/
def syncStep (s : SyncState) : Ev → SyncState
  | .call online =>
    if s.flushing then { s with flushQueued := true }
    else if online then ⟨true, false, s.active + 1⟩
    else s
  | .finish online =>
    if s.active = 0 then s
    else if s.flushQueued then
      if online then ⟨true, false, s.active⟩
      else ⟨false, true, s.active - 1⟩
    else { s with flushing := false, active := s.active - 1 }

/-- What the DocPage `load` effect (application component) does, seen from
its outcome: show the locally stored copy (possibly opening the interactive
conflict prompt), silently download and ingest the server revision with
`fromServer = true`, or report the document unavailable. -/
inductive LoadResult where
  | showLocal (conflictPrompt : Option Int)
  | autoIngested (rev : Int)
  | unavailable
deriving DecidableEq, Repr

/-- Environment of one run of `load`: whether a local blob exists, the local
meta, connectivity, the server meta fetch result (`none` = failed / 404 /
timed out), whether the file download succeeds, and the number of pending
outbox jobs for this doc (tracked so that claims about "no local edits
pending" can be stated; `load` itself never consults it). -/
structure LoadEnv where
  localBlob : Bool
  revLocal : Int
  online : Bool
  serverMeta : Option (String × Int)
  serverFileOk : Bool
  pendingJobs : Nat
deriving DecidableEq, Repr

/-- The `load` function of DocPage: with a local copy, display it at once and
only raise the interactive conflict prompt when a background meta fetch
reports a strictly larger server revision; with no local copy, download the
server revision and ingest it with `fromServer = true`. -/
def loadDoc (env : LoadEnv) : LoadResult :=
  if env.localBlob then
    if env.online then
      match env.serverMeta with
      | some (_, r) =>
        if r > env.revLocal then .showLocal (some r) else .showLocal none
      | none => .showLocal none
    else .showLocal none
  else
    if env.online then
      match env.serverMeta with
      | some (_, r) => if env.serverFileOk then .autoIngested r else .unavailable
      | none => .unavailable
    else .unavailable

/-- Action taken by `checkForUpdate` (application component) after the meta
fetch. -/
inductive CheckAction where
  | synced
  | pushOutbox
  | conflictPrompt (serverRev : Int)
  | autoDownload (serverRev : Int)
  | serverMissing
  | serverError
deriving DecidableEq, Repr

/-- Result of `fetch(/api/docs/:docId/meta)` as seen by `checkForUpdate`:
ok with (filename, rev), a 404, or another non-ok status. -/
inductive MetaFetch where
  | okMeta (filename : String) (rev : Int)
  | status404
  | statusOther
deriving DecidableEq, Repr

/-- `checkForUpdate(autoResolve)`: a strictly larger server revision either
auto-downloads (autoResolve) or raises the conflict prompt; equality is
"À jour"; a smaller server revision invokes `flushOutbox`. -/
def checkForUpdate (autoResolve : Bool) (res : MetaFetch) (revLocal : Int) : CheckAction :=
  match res with
  | .status404 => .serverMissing
  | .statusOther => .serverError
  | .okMeta _ r =>
    if r > revLocal then
      if autoResolve then .autoDownload r else .conflictPrompt r
    else if r = revLocal then .synced
    else .pushOutbox

/-- The intended invariant of the single-flight guard: the `flushing` flag
is set exactly while one drain loop is in flight. -/
def SyncInv (s : SyncState) : Prop :=
  s.active = (if s.flushing then 1 else 0)

/-- Job `a` is queued (strictly) before job `b`: the outbox splits as
`q₁ ++ jA :: q₂ ++ jB :: q₃` with `jA.id = a`, `jB.id = b`, and no job with
id `b` anywhere before `jA`. -/
def FirstBefore (a b : String) (q : List OutJob) : Prop :=
  ∃ q₁ jA q₂ jB q₃, q = q₁ ++ jA :: (q₂ ++ jB :: q₃)
    ∧ jA.id = a ∧ jB.id = b ∧ b ∉ q₁.map OutJob.id

theorem find?_upsertList_self (l : List DocRow) (row : DocRow) :
    ((upsertList l row).find? (fun r => r.docId = row.docId)).map DocRow.rev = some row.rev := by
  induction l with
  | nil => simp [upsertList, updRow]
  | cons a l ih =>
    by_cases ha : a.docId = row.docId
    · simp [upsertList, updRow, List.find?_cons, ha]
    · by_cases hl : (l.find? (fun r => r.docId = row.docId)).isSome
      · simpa [upsertList, updRow, List.find?_cons, ha, hl] using ih
      · simpa [upsertList, updRow, List.find?_cons, ha, hl] using ih

theorem getDoc_upsertDoc_rev (st : ServerState) (row : DocRow) :
    (getDoc (upsertDoc st row) row.docId).map DocRow.rev = some row.rev := by
  simpa [getDoc, upsertDoc] using find?_upsertList_self st.docs row

/-- C1: for a document whose ServerDocRecord is at revision `N`, an upload
proposing `revClient = k` — via POST /api/docs or PUT /api/docs/:docId —
succeeds iff `k > N`; on success the record's rev becomes exactly `k`, and
on rejection the response is a 409 carrying `revServer = N` (and the state
is unchanged). -/
theorem accept_strict_advance (now : Int) (sha : List Nat → String) (req : UploadReq)
    (st : ServerState) (d : String) (row : DocRow) (k N : Int) (bytes : List Nat)
    (hd : req.docId = some d) (hv : docIdValid d = true)
    (hr : parseIntField req.revClient = some k) (hf : req.file = some bytes)
    (hex : getDoc st d = some row) (hN : row.rev = N) :
    ((k > N → (postDocs now sha req st).1 = Resp.okUpload d k
        ∧ (getDoc (postDocs now sha req st).2.1 d).map DocRow.rev = some k)
      ∧ (k ≤ N → (postDocs now sha req st).1 = Resp.conflict N
        ∧ (postDocs now sha req st).2.1 = st))
    ∧ ((k > N → (putDoc now sha d req st).1 = Resp.okUpload d k
        ∧ (getDoc (putDoc now sha d req st).2.1 d).map DocRow.rev = some k)
      ∧ (k ≤ N → (putDoc now sha d req st).1 = Resp.conflict N
        ∧ (putDoc now sha d req st).2.1 = st)) := by
  subst hN
  refine ⟨⟨fun hk => ?_, fun hk => ?_⟩, fun hk => ?_, fun hk => ?_⟩
  · have hle : ¬ k ≤ row.rev := by omega
    simp only [postDocs, hd, Option.getD_some, hr, hv, Bool.not_true, hf, hex, hle, if_false]
    exact ⟨rfl, getDoc_upsertDoc_rev _ _⟩
  · simp only [postDocs, hd, Option.getD_some, hr, hv, Bool.not_true, hf, hex, hk, if_true]
    exact ⟨rfl, rfl⟩
  · have hle : ¬ k ≤ row.rev := by omega
    simp only [putDoc, hv, Bool.not_true, hr, hf, hex, hle, if_false]
    exact ⟨rfl, getDoc_upsertDoc_rev _ _⟩
  · simp only [putDoc, hv, Bool.not_true, hr, hf, hex, hk, if_true]
    exact ⟨rfl, rfl⟩

/-- Witness for C1 at a concrete state: one record at rev 3, proposals
k = 5 (accepted, rev becomes 5) and k = 3 (rejected, 409 revServer 3). -/
theorem accept_strict_advance_witness :
    (postDocs 100 (fun _ => "h")
        ⟨some "abcd1234", some "f.pdf", some "5", some [1]⟩
        ⟨[⟨"abcd1234", "f.pdf", 1, 1, 3, "h", 1⟩], []⟩).1 = Resp.okUpload "abcd1234" 5
    ∧ (putDoc 100 (fun _ => "h") "abcd1234"
        ⟨some "abcd1234", some "f.pdf", some "3", some [1]⟩
        ⟨[⟨"abcd1234", "f.pdf", 1, 1, 3, "h", 1⟩], []⟩).1 = Resp.conflict 3 := by
  refine ⟨((accept_strict_advance 100 (fun _ => "h") _ _ "abcd1234"
      ⟨"abcd1234", "f.pdf", 1, 1, 3, "h", 1⟩ 5 3 [1] rfl (by decide) (by decide) rfl
      (by decide) rfl).1.1 (by decide)).1, ?_⟩
  exact ((accept_strict_advance 100 (fun _ => "h") _ _ "abcd1234"
      ⟨"abcd1234", "f.pdf", 1, 1, 3, "h", 1⟩ 3 3 [1] rfl (by decide) (by decide) rfl
      (by decide) rfl).2.2 (by decide)).1

/-- C9: when no ServerDocRecord exists for a docId, POST /api/docs accepts
any parsed integer `revClient` — 0 and negatives included — and stores it
as the document's rev: the strict-advance check only applies when a record
already exists. -/
theorem post_first_create_any_rev (now : Int) (sha : List Nat → String) (req : UploadReq)
    (st : ServerState) (d : String) (k : Int) (bytes : List Nat)
    (hd : req.docId = some d) (hv : docIdValid d = true)
    (hr : parseIntField req.revClient = some k) (hf : req.file = some bytes)
    (hnone : getDoc st d = none) :
    (postDocs now sha req st).1 = Resp.okUpload d k
    ∧ (getDoc (postDocs now sha req st).2.1 d).map DocRow.rev = some k := by
  simp only [postDocs, hd, Option.getD_some, hr, hv, Bool.not_true, hf, hnone, if_false]
  exact ⟨rfl, getDoc_upsertDoc_rev _ _⟩

/-- Witness for C9 at `revClient = "-5"`: first creation stores rev −5. -/
theorem post_first_create_any_rev_witness :
    (postDocs 100 (fun _ => "h") ⟨some "abcd1234", some "f.pdf", some "-5", some [1]⟩
        ⟨[], []⟩).1 = Resp.okUpload "abcd1234" (-5)
    ∧ (getDoc (postDocs 100 (fun _ => "h")
        ⟨some "abcd1234", some "f.pdf", some "-5", some [1]⟩
        ⟨[], []⟩).2.1 "abcd1234").map DocRow.rev = some (-5) :=
  post_first_create_any_rev 100 (fun _ => "h") _ _ "abcd1234" (-5) [1] rfl (by decide)
    (by decide) rfl rfl

/-- C8 fails at GET /api/docs/:docId/file: on an invalid docId, GET meta
(synchronous throw caught by Express), POST and PUT (try/catch + next)
answer 400 before any store lookup or write, as the claim states — but the
file endpoint, an async handler whose `assertDocId` throw is an unhandled
promise rejection under Express 4, never sends any response at all (no 400,
no store access), so the claimed 400 cannot be produced there. -/
theorem invalid_docId_behavior (st : ServerState) (d : String) (req : UploadReq)
    (now : Int) (sha : List Nat → String) (hv : docIdValid d = false) :
    ((getMetaH st d).1.status = 400 ∧ (getMetaH st d).2 = [])
    ∧ ((getFileH st d).1 = none ∧ (getFileH st d).2 = [])
    ∧ (req.docId = some d → (postDocs now sha req st).1.status = 400
        ∧ (postDocs now sha req st).2.1 = st ∧ (postDocs now sha req st).2.2 = [])
    ∧ ((putDoc now sha d req st).1.status = 400 ∧ (putDoc now sha d req st).2.1 = st
        ∧ (putDoc now sha d req st).2.2 = []) := by
  refine ⟨?_, ?_, fun hd => ?_, ?_⟩
  · simp [getMetaH, hv, Resp.status]
  · simp [getFileH, hv]
  · cases hr : parseIntField req.revClient with
    | none => simp [postDocs, hd, hr, Resp.status]
    | some k => simp [postDocs, hd, hr, hv, Resp.status]
  · simp [putDoc, hv, Resp.status]

/-- Witness for C8's failing input, the malformed docId `"ab!"`: the file
endpoint produces no response where the claim demands a 400, while the
other three endpoints do answer 400 without touching the store. -/
theorem invalid_docId_behavior_witness :
    (getFileH ⟨[], []⟩ "ab!").1 = none
    ∧ (getMetaH ⟨[], []⟩ "ab!").1.status = 400
    ∧ (postDocs 0 (fun _ => "h") ⟨some "ab!", none, some "1", some [1]⟩ ⟨[], []⟩).1.status = 400
    ∧ (putDoc 0 (fun _ => "h") "ab!" ⟨some "ab!", none, some "1", some [1]⟩ ⟨[], []⟩).2.2 = [] := by
  have h := invalid_docId_behavior ⟨[], []⟩ "ab!" ⟨some "ab!", none, some "1", some [1]⟩ 0
    (fun _ => "h") (by decide)
  exact ⟨h.2.1.1, h.1.1, (h.2.2.1 rfl).1, h.2.2.2.2.2⟩

/-- C6: a sync check without auto-resolve classifies by a three-way
comparison of the fetched server rev against `revLocal`: equal reports
synced, smaller invokes the Outbox Flusher, greater surfaces the conflict
to the user. -/
theorem checkForUpdate_three_way (f : String) (r revLocal : Int) :
    (r = revLocal → checkForUpdate false (.okMeta f r) revLocal = .synced)
    ∧ (r < revLocal → checkForUpdate false (.okMeta f r) revLocal = .pushOutbox)
    ∧ (r > revLocal → checkForUpdate false (.okMeta f r) revLocal = .conflictPrompt r) := by
  refine ⟨fun h => ?_, fun h => ?_, fun h => ?_⟩
  · simp [checkForUpdate, h]
  · have h1 : ¬ r > revLocal := by omega
    have h2 : ¬ r = revLocal := by omega
    simp [checkForUpdate, h1, h2]
  · simp [checkForUpdate, h]

/-- Witness for C6 at revLocal 2 and server revs 2, 1, 3. -/
theorem checkForUpdate_three_way_witness :
    checkForUpdate false (.okMeta "f.pdf" 2) 2 = .synced
    ∧ checkForUpdate false (.okMeta "f.pdf" 1) 2 = .pushOutbox
    ∧ checkForUpdate false (.okMeta "f.pdf" 3) 2 = .conflictPrompt 3 :=
  ⟨(checkForUpdate_three_way "f.pdf" 2 2).1 rfl,
   (checkForUpdate_three_way "f.pdf" 1 2).2.1 (by decide),
   (checkForUpdate_three_way "f.pdf" 3 2).2.2 (by decide)⟩

/-- C7: the upload method for an outbox job is decided from the document's
current meta: `revServer` absent (no meta, or field unset) or ≤ 0 means a
create via POST /api/docs; `revServer > 0` means an update via
PUT /api/docs/:docId. -/
theorem chooseRoute_create_vs_update (d : String) (m : Option ClientMeta) :
    (m.bind ClientMeta.revServer = none → chooseRoute d m = .postCreate)
    ∧ (∀ r, m.bind ClientMeta.revServer = some r → r ≤ 0 → chooseRoute d m = .postCreate)
    ∧ (∀ r, m.bind ClientMeta.revServer = some r → r > 0 → chooseRoute d m = .putUpdate d) := by
  refine ⟨fun h => ?_, fun r h hr => ?_, fun r h hr => ?_⟩
  · cases m with
    | none => simp [chooseRoute]
    | some meta =>
      cases hm : meta.revServer with
      | none => simp [chooseRoute, hm]
      | some r => simp [Option.bind, hm] at h
  all_goals cases m with
    | none => simp [Option.bind] at h
    | some meta =>
      cases hm : meta.revServer with
      | none => simp [Option.bind, hm] at h
      | some r' =>
        simp [Option.bind, hm] at h
        subst h
        simp [chooseRoute, hm]
        omega

/-- Witness for C7: no meta → POST; revServer 0 → POST; revServer 4 → PUT. -/
theorem chooseRoute_create_vs_update_witness :
    chooseRoute "abcd1234" none = .postCreate
    ∧ chooseRoute "abcd1234" (some ⟨"f.pdf", 1, some 0, none⟩) = .postCreate
    ∧ chooseRoute "abcd1234" (some ⟨"f.pdf", 1, some 4, none⟩) = .putUpdate "abcd1234" :=
  ⟨(chooseRoute_create_vs_update "abcd1234" none).1 rfl,
   (chooseRoute_create_vs_update "abcd1234" (some ⟨"f.pdf", 1, some 0, none⟩)).2.1 0 rfl le_rfl,
   (chooseRoute_create_vs_update "abcd1234" (some ⟨"f.pdf", 1, some 4, none⟩)).2.2 4 rfl
     (by decide)⟩

/-- C10: when the drain loop of `flushOutbox` exits while jobs are still
queued (the device went offline mid-drain), the final sync-change
notification still reports `(syncing = false, pending = 0)`, not the actual
number of remaining jobs. -/
theorem flush_offline_exit_reports_zero (online ok : Nat → Bool) (fuel : Nat) (q : List OutJob)
    (hex : (flushOutboxRun online ok fuel q).2.2 = true)
    (hrem : (flushOutboxRun online ok fuel q).2.1 ≠ []) :
    (flushOutboxRun online ok fuel q).1.getLast? = some (false, 0)
    ∧ (flushOutboxRun online ok fuel q).2.1.length ≠ 0 := by
  simp only [flushOutboxRun] at hex hrem ⊢
  constructor
  · rw [hex]
    simp only [if_true, ← List.cons_append]
    exact List.getLast?_concat _
  · simpa [List.length_eq_zero] using hrem

/-- Witness for C10: two queued jobs, the first upload fails, connectivity
drops at the second loop iteration; the run exits with two jobs left yet the
last notification is `(false, 0)`. -/
theorem flush_offline_exit_reports_zero_witness :
    (flushOutboxRun (fun k => decide (k = 0)) (fun _ => false) 5
        [⟨"a:1", "a", 1, 0⟩, ⟨"b:1", "b", 1, 0⟩]).1.getLast? = some (false, 0)
    ∧ (flushOutboxRun (fun k => decide (k = 0)) (fun _ => false) 5
        [⟨"a:1", "a", 1, 0⟩, ⟨"b:1", "b", 1, 0⟩]).2.1.length ≠ 0 :=
  flush_offline_exit_reports_zero (fun k => decide (k = 0)) (fun _ => false) 5
    [⟨"a:1", "a", 1, 0⟩, ⟨"b:1", "b", 1, 0⟩] (by decide) (by decide)

/-- C2 is false on the code: an outbox job whose upload gets a 409 IS
retried as a transient failure with backoff. Concretely, a fresh job
receiving `409 {revServer = 3}` is kept and backed off (500 ms), exactly as
a network error would be — nothing is surfaced to the conflict UI. -/
theorem conflict_retried_counterexample :
    flushIterAction ⟨"d1:2", "d1", 2, 0⟩ (HttpResult.conflict 3)
      = StepAction.retriedWithBackoff 500
    ∧ flushIterAction ⟨"d1:2", "d1", 2, 0⟩ (HttpResult.conflict 3)
      = flushIterAction ⟨"d1:2", "d1", 2, 0⟩ HttpResult.networkError := ⟨rfl, rfl⟩

/-- C2 amended: a 409 conflict response is treated by `flushOutbox` exactly
like any transient failure — `uploadOne` throws a plain error, the loop
bumps the job's try counter, sleeps the exponential backoff, and the job
stays at the head of the outbox to be retried; the flusher itself never
routes the conflict to the Conflict Coordinator. -/
theorem conflict_treated_as_transient (job : OutJob) (rest : List OutJob) (r : Int)
    (online ok : Nat → Bool) (fuel k : Nat)
    (honline : online k = true) (hok : ok k = false) :
    (∃ msg, uploadOneResult (HttpResult.conflict r) = .failure msg)
    ∧ flushIterAction job (HttpResult.conflict r)
        = .retriedWithBackoff (backoffMs job.tries)
    ∧ flushIterAction job (HttpResult.conflict r) = flushIterAction job HttpResult.networkError
    ∧ flushSteps online ok (fuel + 1) k (job :: rest)
        = ⟨job :: (flushSteps online ok fuel (k + 1) (bumpJob job :: rest)).attempts,
           (true, (bumpJob job :: rest).length)
             :: (flushSteps online ok fuel (k + 1) (bumpJob job :: rest)).notifs,
           (flushSteps online ok fuel (k + 1) (bumpJob job :: rest)).remaining,
           (flushSteps online ok fuel (k + 1) (bumpJob job :: rest)).exited⟩ := by
  refine ⟨⟨_, rfl⟩, rfl, rfl, ?_⟩
  simp [flushSteps, honline, hok]

/-- Witness for the amended C2 at a concrete job and oracles. -/
theorem conflict_treated_as_transient_witness :
    flushIterAction ⟨"d1:2", "d1", 2, 1⟩ (HttpResult.conflict 3)
      = .retriedWithBackoff (backoffMs 1)
    ∧ flushSteps (fun _ => true) (fun _ => false) 1 0 [⟨"d1:2", "d1", 2, 1⟩]
        = ⟨[⟨"d1:2", "d1", 2, 1⟩], [(true, 1)], [⟨"d1:2", "d1", 2, 2⟩], false⟩ := by
  have h := conflict_treated_as_transient ⟨"d1:2", "d1", 2, 1⟩ [] 3
    (fun _ => true) (fun _ => false) 0 0 rfl rfl
  exact ⟨h.2.1, by rw [h.2.2.2]; decide⟩

/-- C5 is false on the code: on load of a document with a local copy, no
pending outbox job, `revLocal = 1` and server rev 2, the code surfaces the
interactive conflict prompt instead of auto-resolving — auto-resolve is
keyed on the absence of a local copy, not on the absence of pending local
edits. -/
theorem load_auto_resolve_counterexample :
    loadDoc ⟨true, 1, true, some ("f.pdf", 2), true, 0⟩ = LoadResult.showLocal (some 2)
    ∧ LoadResult.showLocal (some 2) ≠ LoadResult.autoIngested 2 := ⟨rfl, by decide⟩

/-- C5 amended: auto-resolve applies on first load only when no local copy
of the document exists — then the server revision is silently downloaded
and ingested with `fromServer = true`; whenever a local copy exists, even
with no unsynced local edits pending, a strictly greater server revision
surfaces the interactive keep-local/take-server choice. -/
theorem load_auto_resolve_amended (env : LoadEnv) (f : String) (r : Int)
    (hs : env.serverMeta = some (f, r)) (honline : env.online = true) :
    (env.localBlob = false → env.serverFileOk = true → loadDoc env = .autoIngested r)
    ∧ (env.localBlob = true → r > env.revLocal → loadDoc env = .showLocal (some r)) := by
  refine ⟨fun hb hok => ?_, fun hb hr => ?_⟩
  · simp [loadDoc, hb, honline, hs, hok]
  · simp [loadDoc, hb, honline, hs, hr]

/-- Witness for the amended C5: with no local copy, server rev 2 is
auto-ingested; with a local copy at rev 1 (no pending edits), server rev 2
raises the prompt. -/
theorem load_auto_resolve_amended_witness :
    loadDoc ⟨false, 0, true, some ("f.pdf", 2), true, 0⟩ = .autoIngested 2
    ∧ loadDoc ⟨true, 1, true, some ("f.pdf", 2), true, 0⟩ = .showLocal (some 2) :=
  ⟨(load_auto_resolve_amended ⟨false, 0, true, some ("f.pdf", 2), true, 0⟩ "f.pdf" 2
      rfl rfl).1 rfl rfl,
   (load_auto_resolve_amended ⟨true, 1, true, some ("f.pdf", 2), true, 0⟩ "f.pdf" 2
      rfl rfl).2 rfl (by decide)⟩

theorem syncStep_inv (s : SyncState) (e : Ev) (h : SyncInv s) : SyncInv (syncStep s e) := by
  unfold SyncInv at h ⊢
  cases e with
  | call o =>
    simp only [syncStep]
    split_ifs <;> simp_all
  | finish o =>
    simp only [syncStep]
    split_ifs <;> simp_all

theorem foldl_syncStep_inv (evs : List Ev) (s : SyncState) (h : SyncInv s) :
    SyncInv (evs.foldl syncStep s) := by
  induction evs generalizing s with
  | nil => exact h
  | cons e evs ih => exact ih _ (syncStep_inv s e h)

/-- C3: after any sequence of call/finish events from the initial state, at
most one drain loop is in flight; a call arriving while a flush is running
changes nothing but the `flushQueued` flag (no second drain is started);
and when the running drain finishes with a queued request, exactly one
trailing re-run starts (the guard ends up `flushing = true`,
`flushQueued = false`, still with a single drain in flight). -/
theorem flush_single_flight (evs : List Ev) :
    ((evs.foldl syncStep initSync).active ≤ 1)
    ∧ ((evs.foldl syncStep initSync).flushing = true →
        (∀ o, syncStep (evs.foldl syncStep initSync) (.call o)
          = { evs.foldl syncStep initSync with flushQueued := true })
        ∧ ((evs.foldl syncStep initSync).flushQueued = true →
            syncStep (evs.foldl syncStep initSync) (.finish true) = ⟨true, false, 1⟩)) := by
  have hinv := foldl_syncStep_inv evs initSync (by simp [SyncInv, initSync])
  unfold SyncInv at hinv
  refine ⟨?_, fun hf => ⟨fun o => ?_, fun hq => ?_⟩⟩
  · rw [hinv]; split_ifs <;> omega
  · simp [syncStep, hf]
  · have ha : (evs.foldl syncStep initSync).active = 1 := by rw [hinv, if_pos hf]
    simp [syncStep, ha, hq]

/-- Witness for C3: two calls while online — the second only queues; the
state after them has one drain in flight, and finishing it restarts one. -/
theorem flush_single_flight_witness :
    ([Ev.call true, Ev.call true].foldl syncStep initSync).active ≤ 1
    ∧ syncStep ([Ev.call true, Ev.call true].foldl syncStep initSync) (.call false)
        = ⟨true, true, 1⟩
    ∧ syncStep ([Ev.call true, Ev.call true].foldl syncStep initSync) (.finish true)
        = ⟨true, false, 1⟩ := by
  have h := flush_single_flight [Ev.call true, Ev.call true]
  refine ⟨h.1, ?_, (h.2 (by decide)).2 (by decide)⟩
  rw [(h.2 (by decide)).1 false]
  decide

/-- C4: during one flush, outbox jobs are attempted strictly in queue
(creation) order: whenever a job with id `b`, queued after the job with id
`a`, is attempted at position `i` of the attempt trace, some strictly
earlier attempt was an attempt of `a` that succeeded — so `b` is never
attempted before `a` has been uploaded and removed; in particular, after
`a` fails it stays at the head and is retried before `b` is first
attempted. The outbox order is `listOutboxOrderedByCreation`, modelled from
the spec (db.ts is not among the sources). -/
theorem flush_fifo (online ok : Nat → Bool) (fuel k : Nat) (q : List OutJob)
    (a b : String) (hab : a ≠ b) (hq : FirstBefore a b q)
    (i : Nat) (jb : OutJob)
    (hi : (flushSteps online ok fuel k q).attempts[i]? = some jb)
    (hbid : jb.id = b) :
    ∃ j, j < i ∧ ok (k + j) = true
      ∧ ∃ ja, (flushSteps online ok fuel k q).attempts[j]? = some ja ∧ ja.id = a := by
  induction fuel generalizing k q i jb with
  | zero => simp [flushSteps] at hi
  | succ fuel ih =>
    obtain ⟨q₁, jA, q₂, jB, q₃, hqe, hA, hB, hBq₁⟩ := hq
    subst hqe
    cases hon : online k with
    | false => cases q₁ <;> simp [flushSteps, hon] at hi
    | true =>
      cases q₁ with
      | nil =>
        simp only [List.nil_append] at hi ⊢
        cases i with
        | zero =>
          simp [flushSteps, hon] at hi
          subst hi
          rw [hA] at hbid
          exact absurd hbid hab
        | succ i' =>
          cases hok : ok k with
          | true =>
            refine ⟨0, Nat.succ_pos _, by simpa using hok, jA, ?_, hA⟩
            simp [flushSteps, hon]
          | false =>
            simp [flushSteps, hon, hok] at hi
            have hq' : FirstBefore a b (bumpJob jA :: (q₂ ++ jB :: q₃)) :=
              ⟨[], bumpJob jA, q₂, jB, q₃, by simp, by simpa [bumpJob] using hA, hB, by simp⟩
            obtain ⟨j', hj'i, hokj', ja, hja, hjaid⟩ := ih (k + 1) _ hq' i' jb hi hbid
            refine ⟨j' + 1, by omega, ?_, ja, ?_, hjaid⟩
            · rw [show k + (j' + 1) = (k + 1) + j' by omega]
              exact hokj'
            · simpa [flushSteps, hon, hok] using hja
      | cons a₁ q₁' =>
        have hba₁ : b ≠ a₁.id ∧ b ∉ q₁'.map OutJob.id := by simpa using hBq₁
        simp only [List.cons_append] at hi ⊢
        cases i with
        | zero =>
          simp [flushSteps, hon] at hi
          subst hi
          exact absurd hbid.symm hba₁.1
        | succ i' =>
          cases hok : ok k with
          | true =>
            simp [flushSteps, hon, hok] at hi
            have hq' : FirstBefore a b (q₁' ++ jA :: (q₂ ++ jB :: q₃)) :=
              ⟨q₁', jA, q₂, jB, q₃, rfl, hA, hB, hba₁.2⟩
            obtain ⟨j', hj'i, hokj', ja, hja, hjaid⟩ := ih (k + 1) _ hq' i' jb hi hbid
            refine ⟨j' + 1, by omega, ?_, ja, ?_, hjaid⟩
            · rw [show k + (j' + 1) = (k + 1) + j' by omega]
              exact hokj'
            · simpa [flushSteps, hon, hok] using hja
          | false =>
            simp [flushSteps, hon, hok] at hi
            have hq' : FirstBefore a b (bumpJob a₁ :: (q₁' ++ jA :: (q₂ ++ jB :: q₃))) :=
              ⟨bumpJob a₁ :: q₁', jA, q₂, jB, q₃, by simp, hA, hB,
                by simpa [bumpJob] using hBq₁⟩
            obtain ⟨j', hj'i, hokj', ja, hja, hjaid⟩ := ih (k + 1) _ hq' i' jb hi hbid
            refine ⟨j' + 1, by omega, ?_, ja, ?_, hjaid⟩
            · rw [show k + (j' + 1) = (k + 1) + j' by omega]
              exact hokj'
            · simpa [flushSteps, hon, hok] using hja

/-- Witness for C4: queue [a:1, b:1], first attempt of a:1 fails, its retry
succeeds; b:1 is attempted at position 2, and the theorem produces the
earlier successful attempt of a:1. -/
theorem flush_fifo_witness :
    ∃ j, j < 2 ∧ (fun k => decide (1 ≤ k)) (0 + j) = true
      ∧ ∃ ja, (flushSteps (fun _ => true) (fun k => decide (1 ≤ k)) 5 0
          [⟨"a:1", "a", 1, 0⟩, ⟨"b:1", "b", 1, 0⟩]).attempts[j]? = some ja
        ∧ ja.id = "a:1" :=
  flush_fifo (fun _ => true) (fun k => decide (1 ≤ k)) 5 0
    [⟨"a:1", "a", 1, 0⟩, ⟨"b:1", "b", 1, 0⟩] "a:1" "b:1" (by decide)
    ⟨[], ⟨"a:1", "a", 1, 0⟩, [], ⟨"b:1", "b", 1, 0⟩, [], rfl, rfl, rfl, by simp⟩
    2 ⟨"b:1", "b", 1, 0⟩ (by decide) rfl

end PdfAnnotate
